import Mathlib

/-! Verification development for the rustin code-analysis tool: a shallow
embedding of its partial parser (parser.rs), its semantic gravity engine
(gravity.rs) and the shared data model (types.rs), followed by theorems
settling specification claims about them.

Strings are modelled as lists of characters; Rust string operations are
embedded at character granularity (all analysed inputs are ASCII, where
byte indexing and character indexing coincide).  Machine integers are
modelled as Nat or Int.  External collaborators (the file system, the
directory walker and the syn single-unit parser) are passed in as oracle
functions, mirroring the interfaces the core consumes. -/

namespace Rustin

/-- Strings as character lists (Rust str / String at char granularity). -/
abbrev Str := List Char

/-- Whitespace predicate modelling char::is_whitespace / the regex class
for the ASCII inputs analysed here. -/
def isWsChar (c : Char) : Bool :=
  c == ' ' || c == '\t' || c == '\n' || c == '\r'

/-- Word-character predicate modelling the regex class of letters, digits
and underscore. -/
def isWordChar (c : Char) : Bool :=
  c.isAlphanum || c == '_'

/-- Drop every leading whitespace character (Rust str::trim_start). -/
def trimStartWs : Str → Str
  | [] => []
  | c :: xs => if isWsChar c then trimStartWs xs else c :: xs

/-- Drop every trailing whitespace character (Rust str::trim_end). -/
def trimEndWs : Str → Str
  | [] => []
  | c :: xs =>
    match trimEndWs xs with
    | [] => if isWsChar c then [] else [c]
    | r => c :: r

/-- Rust str::trim: strip whitespace at both ends. -/
def trimWs (s : Str) : Str := trimEndWs (trimStartWs s)

/-- Strip all leading ampersands: Rust trim_start_matches applied to the
reference marker, as in gravity.rs normalize_type_name. -/
def stripAmp : Str → Str
  | '&' :: rest => stripAmp rest
  | s => s

/-- Repeatedly strip a leading mutability-marker-plus-space, modelling the
trim_start_matches call on that four-character pattern in
gravity.rs normalize_type_name. -/
def stripMut : Str → Str
  | 'm' :: 'u' :: 't' :: ' ' :: rest => stripMut rest
  | s => s

/-- Keep the prefix before the first generic-parameter opening bracket:
models the find-then-truncate step of normalize_type_name. -/
def takeUntilLt : Str → Str
  | [] => []
  | c :: xs => if c = '<' then [] else c :: takeUntilLt xs

/-- Embedding of SemanticGravity::normalize_type_name (gravity.rs 290-300):
strip leading ampersands, strip leading mutability markers, truncate at the
first opening angle bracket, then trim whitespace. -/
def normalize_type_name (ty : Str) : Str :=
  trimWs (takeUntilLt (stripMut (stripAmp ty)))

/-- Example input from the spec. -/
def exMutVec : Str := "&mut Vec<T>".data

/-- Example input from the spec. -/
def exRefStruct : Str := "&MyStruct".data

/-- Expected normalization result for exMutVec. -/
def exVecName : Str := "Vec".data

/-- Expected normalization result for exRefStruct. -/
def exStructName : Str := "MyStruct".data

/-- Counterexample input for idempotence: whitespace before the reference
marker prevents the marker from being stripped on the first pass. -/
def exSpaceAmp : Str := " &Foo".data

/-- Boolean prefix test on character lists (Rust str::starts_with for a
string pattern). -/
def strStartsWith : Str → Str → Bool
  | [], _ => true
  | _ :: _, [] => false
  | p :: ps, c :: cs => p == c && strStartsWith ps cs

/-- Boolean substring test (Rust str::contains for a string pattern): the
pattern occurs as a prefix of some suffix. -/
def strContains (pat : Str) : Str → Bool
  | [] => strStartsWith pat []
  | c :: rest => strStartsWith pat (c :: rest) || strContains pat rest

/-- Split a character list at every occurrence of a separator character,
keeping empty segments (so the number of segments is one more than the
number of separators). -/
def splitOnChar (sep : Char) : Str → List Str
  | [] => [[]]
  | c :: rest =>
    if c = sep then [] :: splitOnChar sep rest
    else
      match splitOnChar sep rest with
      | [] => [[c]]
      | l :: ls => (c :: l) :: ls

/-- Strip one trailing carriage return from a line, as Rust str::lines does
for lines terminated by a carriage-return-plus-newline pair. -/
def stripCr (l : Str) : Str :=
  match l.reverse with
  | '\r' :: rest => rest.reverse
  | _ => l

/-- Embedding of Rust str::lines: split at newlines, drop a final empty
segment produced by a trailing newline, and strip a carriage return from
every newline-terminated segment. -/
def linesOf (s : Str) : List Str :=
  match s with
  | [] => []
  | _ =>
    let parts := splitOnChar '\n' s
    if parts.getLast? = some [] then (parts.dropLast).map stripCr
    else (parts.dropLast).map stripCr ++ [(parts.getLast?).getD []]

/-- Item visibility (types.rs Visibility). -/
inductive Visibility
  | Public
  | Crate
  | Super
  | Private
  | Restricted
deriving DecidableEq, Repr

/-- Function parameter (types.rs Parameter). -/
structure Parameter where
  name : Str
  ty : Str
  is_self : Bool
deriving DecidableEq, Repr

/-- Struct or enum-variant field (types.rs StructField). -/
structure StructField where
  name : Option Str
  ty : Str
  visibility : Visibility
deriving DecidableEq, Repr

/-- Enum variant (types.rs EnumVariant). -/
structure EnumVariant where
  name : Str
  fields : List StructField
deriving DecidableEq, Repr

/-- Source span (types.rs Span). -/
structure Span where
  start_line : Nat
  start_col : Nat
  end_line : Nat
  end_col : Nat
deriving DecidableEq, Repr

/-- The Default implementation for Span (types.rs 105-114): all four
coordinates are zero. -/
def spanDefault : Span :=
  { start_line := 0, start_col := 0, end_line := 0, end_col := 0 }

/-- Item kind (types.rs ItemKind).  The MacroItem constructor models the
declarative-macro variant of the Rust enum. -/
inductive ItemKind
  | Function (is_async : Bool) (parameters : List Parameter)
      (return_type : Option Str)
  | Struct (fields : List StructField) (is_tuple : Bool)
  | Enum (variants : List EnumVariant)
  | Trait (methods : List Str) (supertraits : List Str)
  | Impl (self_type : Str) (trait_name : Option Str) (methods : List Str)
  | Mod (inline : Bool)
  | Use (path : Str)
  | Const (ty : Str)
  | Static (ty : Str) (is_mut : Bool)
  | TypeAlias (ty : Str)
  | MacroItem (is_declarative : Bool)
  | Unknown (raw_text : Str) (error : Str)
deriving DecidableEq, Repr

/-- Whether an item kind is the Unknown placeholder. -/
def ItemKind.isUnknownK : ItemKind → Bool
  | .Unknown _ _ => true
  | _ => false

/-- Parsed item (types.rs ParsedItem).  File paths are modelled as Str. -/
structure ParsedItem where
  kind : ItemKind
  name : Str
  visibility : Visibility
  span : Span
  file_path : Str
  attributes : List Str
  doc_comment : Option Str
deriving DecidableEq, Repr

/-- Recovered parse error (types.rs ParseError). -/
structure ParseError where
  message : Str
  span : Option Span
  raw_text : Str
deriving DecidableEq, Repr

/-- Result of parsing one file (types.rs ParsedFile). -/
structure ParsedFile where
  path : Str
  items : List ParsedItem
  parse_errors : List ParseError
  module_path : List Str
deriving DecidableEq, Repr

/-- Call site (types.rs CallSite). -/
structure CallSite where
  caller : Str
  file : Str
  line : Nat
deriving DecidableEq, Repr

/-- Call graph (types.rs CallGraph).  The two hash maps are modelled as
association lists in insertion order; or-default pushes append to the
entry's vector exactly as in the source. -/
structure CallGraph where
  callers : List (Str × List CallSite)
  callees : List (Str × List Str)
deriving DecidableEq, Repr

/-- The empty call graph (CallGraph::default). -/
def emptyCallGraph : CallGraph := { callers := [], callees := [] }

/-- External reference (types.rs ExternalReference). -/
structure ExternalReference where
  external_path : Str
  file : Str
  line : Nat
  caller_context : Str
  complexity : Nat
deriving DecidableEq, Repr

/-- Lookup in an association list, modelling HashMap::get. -/
def mapGet {V : Type} : List (Str × V) → Str → Option V
  | [], _ => none
  | (k, v) :: rest, key => if key = k then some v else mapGet rest key

/-- Append a value to a key's vector, creating the entry when missing:
models HashMap entry(k).or_default().push(v). -/
def mapPush {V : Type} : List (Str × List V) → Str → V → List (Str × List V)
  | [], k, v => [(k, [v])]
  | (k', vs) :: rest, k, v =>
    if k = k' then (k', vs ++ [v]) :: rest
    else (k', vs) :: mapPush rest k v

/-- Insert or replace a key's value, modelling HashMap::insert. -/
def mapInsert {V : Type} : List (Str × V) → Str → V → List (Str × V)
  | [], k, v => [(k, v)]
  | (k', v') :: rest, k, v =>
    if k = k' then (k, v) :: rest
    else (k', v') :: mapInsert rest k v

/-- Keep the value already present, or insert the given one: models
HashMap entry(k).or_insert(v). -/
def mapEntryOrInsert {V : Type} : List (Str × V) → Str → V → List (Str × V)
  | [], k, v => [(k, v)]
  | (k', v') :: rest, k, v =>
    if k = k' then (k', v') :: rest
    else (k', v') :: mapEntryOrInsert rest k v

/-- Candidate single-item chunk of source text (parser.rs ItemChunk). -/
structure ItemChunk where
  text : Str
  start_line : Nat
deriving DecidableEq, Repr

/-- Item-introducing keywords recognised by looks_like_item
(parser.rs 240-260). -/
def itemKeywords : List Str :=
  [ "fn ".data, "pub ".data, "struct ".data, "enum ".data, "impl ".data,
    "mod ".data, "trait ".data, "type ".data, "const ".data, "static ".data,
    "use ".data, "macro_rules!".data, "#[".data, "async ".data,
    "unsafe ".data ]

/-- Embedding of PartialParser::looks_like_item: after trimming leading
whitespace, the text starts with one of the item-introducing keywords. -/
def looks_like_item (text : Str) : Bool :=
  itemKeywords.any (fun kw => strStartsWith kw (trimStartWs text))

/-- Number of lines in the prefix of the content before a cut point: models
content[..current_start].lines().count() in parser.rs split_into_items. -/
def chunkStartLine (content : Str) (start : Nat) : Nat :=
  (linesOf (content.take start)).length

/-- Scanner state for split_into_items (parser.rs 152-237). -/
structure SplitSt where
  chunks : List ItemChunk
  currentStart : Nat
  braceDepth : Int
  inString : Bool
  inChar : Bool
  escapeNext : Bool

/-- One left-to-right pass of the chunk splitter (parser.rs 162-222): the
first argument is the full content for slicing, the second the remaining
characters, the third the absolute index of the next character.  The brace
depth is an Int because the source decrements an integer counter that can
go below zero on unbalanced input. -/
def splitScan (content : Str) : Str → Nat → SplitSt → SplitSt
  | [], _, st => st
  | c :: rest, i, st =>
    if st.escapeNext then
      splitScan content rest (i + 1) { st with escapeNext := false }
    else if c = '\\' then
      splitScan content rest (i + 1) { st with escapeNext := true }
    else
      let st1 :=
        if !st.inChar && c = '"' then { st with inString := !st.inString }
        else if !st.inString && c = '\'' then { st with inChar := !st.inChar }
        else st
      let st2 :=
        if !st1.inString && !st1.inChar then
          if c = '{' then { st1 with braceDepth := st1.braceDepth + 1 }
          else if c = '}' then
            let d := st1.braceDepth - 1
            if d = 0 then
              let text := (content.drop st1.currentStart).take
                (i + 1 - st1.currentStart)
              let pushed :=
                if !(trimWs text).isEmpty then
                  st1.chunks ++
                    [⟨text, chunkStartLine content st1.currentStart⟩]
                else st1.chunks
              { st1 with
                  braceDepth := d
                  currentStart := i + 1
                  chunks := pushed }
            else { st1 with braceDepth := d }
          else if c = ';' && st1.braceDepth = 0 then
            let text := (content.drop st1.currentStart).take
              (i + 1 - st1.currentStart)
            let pushed :=
              if !(trimWs text).isEmpty && looks_like_item (trimWs text) then
                st1.chunks ++
                  [⟨text, chunkStartLine content st1.currentStart⟩]
              else st1.chunks
            { st1 with currentStart := i + 1, chunks := pushed }
          else st1
        else st1
      splitScan content rest (i + 1) st2

/-- Embedding of PartialParser::split_into_items: run the scanner, then
keep any item-looking trailing remainder as a final chunk. -/
def split_into_items (content : Str) : List ItemChunk :=
  let st := splitScan content content 0
    { chunks := [], currentStart := 0, braceDepth := 0,
      inString := false, inChar := false, escapeNext := false }
  if st.currentStart < content.length then
    let remaining := content.drop st.currentStart
    if !(trimWs remaining).isEmpty && looks_like_item (trimWs remaining) then
      st.chunks ++ [⟨remaining, chunkStartLine content st.currentStart⟩]
    else st.chunks
  else st.chunks

/-- Maximal run of word characters at the front of a string (the greedy
one-or-more word-character regex piece). -/
def wordRun : Str → Str
  | [] => []
  | c :: xs => if isWordChar c then c :: wordRun xs else []

/-- Match one-or-more whitespace characters followed by a captured word at
the front of a string, the common tail of the name-extraction regexes. -/
def wsThenWord (t : Str) : Option Str :=
  match t with
  | [] => none
  | c :: _ =>
    if isWsChar c then
      match wordRun (trimStartWs t) with
      | [] => none
      | w => some w
    else none

/-- Item keywords of the guess_item_name regex alternation, in source
order (parser.rs 263-273). -/
def guessKeywords : List Str :=
  [ "fn".data, "struct".data, "enum".data, "impl".data, "mod".data,
    "trait".data, "type".data, "const".data, "static".data,
    "macro_rules!".data ]

/-- Attempt the guess_item_name regex at one position: some alternation
keyword is a prefix here, followed by whitespace and a captured word. -/
def tryGuessAt (s : Str) : Option Str :=
  guessKeywords.findSome? (fun kw =>
    if strStartsWith kw s then wsThenWord (s.drop kw.length) else none)

/-- Leftmost-match scan for the guess_item_name regex. -/
def guessScan : Str → Option Str
  | [] => none
  | c :: rest =>
    match tryGuessAt (c :: rest) with
    | some w => some w
    | none => guessScan rest

/-- Sentinel name used when no item name can be guessed. -/
def unknownName : Str := "<unknown>".data

/-- Embedding of PartialParser::guess_item_name: first regex match of an
item keyword followed by an identifier, defaulting to the sentinel. -/
def guess_item_name (text : Str) : Str :=
  (guessScan text).getD unknownName

/-- Item list as produced by the external single-unit parser combined with
the repository's ItemVisitor: the visitor constructs every item with the
all-zero default span (parser.rs 444 and analogous arms) and never
constructs an Unknown item (its match has no Unknown arm), which the last
field records. -/
structure SynItem where
  kind : ItemKind
  name : Str
  visibility : Visibility
  attributes : List Str
  doc_comment : Option Str
  kind_not_unknown : kind.isUnknownK = false

/-- Oracle abstracting syn::parse_file composed with extract_items: maps
source text to an item list or an error message. -/
abbrev SynOracle := Str → Except Str (List SynItem)

/-- Attach the repository-determined fields to an extracted item: the span
is the all-zero default and the file path is the parsed file's path. -/
def synToParsed (path : Str) (si : SynItem) : ParsedItem :=
  { kind := si.kind, name := si.name, visibility := si.visibility,
    span := spanDefault, file_path := path,
    attributes := si.attributes, doc_comment := si.doc_comment }

/-- Opening text of the synthetic wrapper scope (parser.rs 278). -/
def wrapOpen : Str := "mod __wrapper__ \x7b ".data

/-- Closing text of the synthetic wrapper scope. -/
def wrapClose : Str := " \x7d".data

/-- Wrap a chunk in the synthetic nameless container scope before
re-parsing (parser.rs parse_chunk). -/
def wrapChunk (chunk : Str) : Str := wrapOpen ++ chunk ++ wrapClose

/-- Leading text of the ParserError::Parse display format. -/
def peFront : Str := "Parse error in ".data

/-- Separator of the ParserError::Parse display format. -/
def peMid : Str := ": ".data

/-- Display string of ParserError::Parse, as produced by e.to_string() in
parse_partial. -/
def parseErrorDisplay (file msg : Str) : Str := peFront ++ file ++ peMid ++ msg

/-- Embedding of PartialParser::parse_chunk: parse the wrapped chunk with
the external parser, extracting items on success. -/
def parse_chunk (syn : SynOracle) (path : Str) (chunk : Str) :
    Except Str (List ParsedItem) :=
  match syn (wrapChunk chunk) with
  | .ok items => .ok (items.map (synToParsed path))
  | .error e => .error (parseErrorDisplay path e)

/-- Shift a span forward by a chunk's starting-line offset
(parser.rs 103-106 adjusts start_line and end_line only). -/
def shiftSpanBy (off : Nat) (sp : Span) : Span :=
  { sp with start_line := sp.start_line + off, end_line := sp.end_line + off }

/-- Shift every item's span by a chunk offset. -/
def shiftItems (off : Nat) (items : List ParsedItem) : List ParsedItem :=
  items.map (fun it => { it with span := shiftSpanBy off it.span })

/-- Approximate span recorded for a failed chunk (parser.rs 110-119): from
the chunk's starting line to that plus the chunk's line count.  The raw
text of the resulting ParseError keeps only the first 200 characters. -/
def chunkSpan (chunk : ItemChunk) : Span :=
  { start_line := chunk.start_line
    start_col := 0
    end_line := chunk.start_line + (linesOf chunk.text).length
    end_col := 0 }

/-- Structured error recorded for a chunk that failed to re-parse, with
the approximate span of chunkSpan. -/
def mkChunkError (chunk : ItemChunk) (msg : Str) : ParseError :=
  { message := msg
    span := some (chunkSpan chunk)
    raw_text := chunk.text.take 200 }

/-- Unknown placeholder item appended for a failed chunk
(parser.rs 121-139): the raw text keeps only the first 500 characters. -/
def mkUnknownItem (path : Str) (chunk : ItemChunk) (msg : Str) : ParsedItem :=
  { kind := ItemKind.Unknown (chunk.text.take 500) msg
    name := guess_item_name chunk.text
    visibility := Visibility.Private
    span := chunkSpan chunk
    file_path := path
    attributes := []
    doc_comment := none }

/-- One chunk of the parse_partial loop body (parser.rs 99-141): on
success append the shifted items, on failure append the unknown item and
record the error. -/
def parseStep (syn : SynOracle) (path : Str)
    (acc : List ParsedItem × List ParseError) (chunk : ItemChunk) :
    List ParsedItem × List ParseError :=
  match parse_chunk syn path chunk.text with
  | .ok parsed => (acc.1 ++ shiftItems chunk.start_line parsed, acc.2)
  | .error msg =>
    (acc.1 ++ [mkUnknownItem path chunk msg], acc.2 ++ [mkChunkError chunk msg])

/-- Embedding of PartialParser::parse_partial: split into chunks and fold
the per-chunk recovery step.  The Rust function's Result is always Ok, so
the model returns the ParsedFile directly. -/
def parse_partial_file (syn : SynOracle) (path : Str) (content : Str)
    (module_path : List Str) : ParsedFile :=
  let res := (split_into_items content).foldl (parseStep syn path) ([], [])
  { path := path, items := res.1, parse_errors := res.2,
    module_path := module_path }

/-- Path segments excluded by derive_module_path. -/
def srcSeg : Str := "src".data

/-- Root library file name, excluded by derive_module_path. -/
def libRsSeg : Str := "lib.rs".data

/-- Root binary file name, excluded by derive_module_path. -/
def mainRsSeg : Str := "main.rs".data

/-- Directory-module file name, excluded by derive_module_path. -/
def modRsSeg : Str := "mod.rs".data

/-- Current-directory path segment, normalised away by Rust's path
component iterator. -/
def dotSeg : Str := ".".data

/-- File suffix stripped from module-path segments. -/
def rsSuffix : Str := ".rs".data

/-- Normal components of a path string: split at separators, dropping
empty segments and the current-directory marker as Rust's component
iterator does. -/
def pathComponents (p : Str) : List Str :=
  (splitOnChar '/' p).filter (fun s => !s.isEmpty && s != dotSeg)

/-- Strip a trailing .rs suffix when present (Rust strip_suffix with
unchanged fallback). -/
def stripRsSuffix (s : Str) : Str :=
  if strStartsWith rsSuffix.reverse s.reverse then (s.reverse.drop 3).reverse
  else s

/-- Embedding of PartialParser::derive_module_path (parser.rs 300-315). -/
def derive_module_path (path : Str) : List Str :=
  ((pathComponents path).filter (fun s =>
    s != srcSeg && s != libRsSeg && s != mainRsSeg && s != modRsSeg)).map
    stripRsSuffix

/-- Embedding of PartialParser::parse_file (parser.rs 64-84): propagate a
read failure, otherwise try the whole-file parse and fall back to partial
parsing.  The read oracle models std::fs::read_to_string. -/
def parse_file (readF : Str → Except Str Str) (syn : SynOracle)
    (path : Str) : Except Str ParsedFile :=
  match readF path with
  | .error e => .error e
  | .ok content =>
    match syn content with
    | .ok items =>
      .ok
        { path := path
          items := items.map (synToParsed path)
          parse_errors := []
          module_path := derive_module_path path }
    | .error _ =>
      .ok (parse_partial_file syn path content (derive_module_path path))

/-- Rust keyword list of SemanticGravity::is_keyword (gravity.rs 512-556). -/
def rustKeywords : List Str :=
  [ "if".data, "else".data, "match".data, "for".data, "while".data,
    "loop".data, "return".data, "break".data, "continue".data, "let".data,
    "mut".data, "ref".data, "fn".data, "struct".data, "enum".data,
    "impl".data, "trait".data, "type".data, "where".data, "use".data,
    "mod".data, "pub".data, "const".data, "static".data, "unsafe".data,
    "async".data, "await".data, "move".data, "dyn".data, "Some".data,
    "None".data, "Ok".data, "Err".data, "Self".data, "self".data,
    "super".data, "crate".data, "as".data, "in".data, "true".data,
    "false".data ]

/-- Embedding of SemanticGravity::is_keyword. -/
def is_keyword (s : Str) : Bool := rustKeywords.contains s

/-- The PRELUDE_METHODS noise list (gravity.rs 39-139), in source order and
with the source's duplicate entries retained. -/
def PRELUDE_METHODS : List Str :=
  [ "iter".data, "into_iter".data, "map".data, "filter".data,
    "collect".data, "fold".data, "find".data, "any".data, "all".data,
    "take".data, "skip".data, "enumerate".data, "zip".data, "chain".data,
    "flatten".data, "flat_map".data, "cloned".data, "copied".data,
    "unwrap".data, "unwrap_or".data, "unwrap_or_else".data,
    "unwrap_or_default".data, "expect".data, "ok".data, "err".data,
    "is_some".data, "is_none".data, "is_ok".data, "is_err".data,
    "map_err".data, "and_then".data, "or_else".data, "ok_or".data,
    "ok_or_else".data, "clone".data, "to_string".data, "to_owned".data,
    "into".data, "from".data, "default".data, "new".data, "len".data,
    "is_empty".data, "push".data, "pop".data, "get".data, "get_mut".data,
    "insert".data, "remove".data, "contains".data, "clear".data,
    "extend".data, "as_ref".data, "as_mut".data, "borrow".data,
    "borrow_mut".data, "deref".data, "deref_mut".data, "trim".data,
    "split".data, "starts_with".data, "ends_with".data, "contains".data,
    "replace".data, "to_lowercase".data, "to_uppercase".data, "chars".data,
    "bytes".data, "lines".data, "fmt".data, "write".data, "writeln".data,
    "format".data, "print".data, "println".data, "eprint".data,
    "eprintln".data, "eq".data, "ne".data, "cmp".data, "partial_cmp".data,
    "lt".data, "le".data, "gt".data, "ge".data, "min".data, "max".data,
    "drop".data, "take".data, "replace".data, "swap".data, "mem".data ]

/-- Embedding of SemanticGravity::is_prelude_method. -/
def is_prelude_method (s : Str) : Bool := PRELUDE_METHODS.contains s

/-- The function-introducing token searched for on every line. -/
def fnSpace : Str := "fn ".data

/-- Attempt the function-name regex at one position: the two keyword
characters, then whitespace, then a captured word. -/
def tryFnAt : Str → Option Str
  | 'f' :: 'n' :: rest => wsThenWord rest
  | _ => none

/-- Embedding of SemanticGravity::extract_fn_name (gravity.rs 503-509):
leftmost match of the function-name regex. -/
def extract_fn_name : Str → Option Str
  | [] => none
  | c :: rest =>
    match tryFnAt (c :: rest) with
    | some w => some w
    | none => extract_fn_name rest

/-- Attempt the plain-call regex at one position: a nonempty word run,
optional whitespace, then an opening parenthesis.  Returns the captured
word and the remainder after the parenthesis. -/
def tryCallAt (s : Str) : Option (Str × Str) :=
  match wordRun s with
  | [] => none
  | w =>
    match trimStartWs (s.drop w.length) with
    | '(' :: rest => some (w, rest)
    | _ => none

/-- Attempt the method-call regex at one position: a dot, a nonempty word
run, optional whitespace, then an opening parenthesis. -/
def tryMethodAt : Str → Option (Str × Str)
  | '.' :: rest =>
    match wordRun rest with
    | [] => none
    | w =>
      match trimStartWs (rest.drop w.length) with
      | '(' :: after => some (w, after)
      | _ => none
  | _ => none

/-- Fuelled scan for successive non-overlapping plain-call matches.  Each
step consumes at least one character, so fuel equal to the string length
never runs out; the fuel only serves to make the recursion structural. -/
def callMatchesAux : Nat → Str → List Str
  | 0, _ => []
  | _ + 1, [] => []
  | fuel + 1, c :: rest =>
    match tryCallAt (c :: rest) with
    | some (w, after) => w :: callMatchesAux fuel after
    | none => callMatchesAux fuel rest

/-- All captures of the plain-call regex on one line, in order
(captures_iter of the call pattern in build_call_graph). -/
def callMatches (s : Str) : List Str := callMatchesAux s.length s

/-- Fuelled scan for successive non-overlapping method-call matches. -/
def methodMatchesAux : Nat → Str → List Str
  | 0, _ => []
  | _ + 1, [] => []
  | fuel + 1, c :: rest =>
    match tryMethodAt (c :: rest) with
    | some (w, after) => w :: methodMatchesAux fuel after
    | none => methodMatchesAux fuel rest

/-- All captures of the method-call regex on one line, in order. -/
def methodMatches (s : Str) : List Str := methodMatchesAux s.length s

/-- Function-context update performed at the top of the per-line loop
(gravity.rs 314-318): a line containing the function token with an
extractable name becomes the new context, otherwise the context persists. -/
def updateFnContext (line : Str) (currentFn : Option Str) : Option Str :=
  if strContains fnSpace line then
    match extract_fn_name line with
    | some n => some n
    | none => currentFn
  else currentFn

/-- Record one surviving plain-call capture (gravity.rs 321-346): filtered
against keywords and prelude methods, then pushed into both maps. -/
def recordCall (filePath : Str) (lineNum : Nat) (caller : Str)
    (g : CallGraph) (callee : Str) : CallGraph :=
  if is_keyword callee || is_prelude_method callee then g
  else
    let site : CallSite := { caller := caller, file := filePath, line := lineNum + 1 }
    { callers := mapPush g.callers callee site
      callees := mapPush g.callees caller callee }

/-- Record one surviving method-call capture (gravity.rs 349-366): only
the callers map is updated. -/
def recordMethod (filePath : Str) (lineNum : Nat) (caller : Str)
    (g : CallGraph) (m : Str) : CallGraph :=
  if is_keyword m || is_prelude_method m then g
  else
    let site : CallSite := { caller := caller, file := filePath, line := lineNum + 1 }
    { g with callers := mapPush g.callers m site }

/-- One line of the build_call_graph loop: update the context, then, when
a context is active, record plain calls and then method calls. -/
def processLine (filePath : Str) (lineNum : Nat) (line : Str)
    (currentFn : Option Str) (g : CallGraph) : Option Str × CallGraph :=
  match updateFnContext line currentFn with
  | none => (none, g)
  | some caller =>
    let g1 := (callMatches line).foldl (recordCall filePath lineNum caller) g
    let g2 := (methodMatches line).foldl
      (recordMethod filePath lineNum caller) g1
    (some caller, g2)

/-- Process a file's lines in order, threading the function context and
the line number. -/
def processLines (filePath : Str) :
    List Str → Nat → Option Str → CallGraph → CallGraph
  | [], _, _, g => g
  | l :: ls, n, fn, g =>
    let r := processLine filePath n l fn g
    processLines filePath ls (n + 1) r.1 r.2

/-- Embedding of SemanticGravity::build_call_graph (gravity.rs 303-372):
per file, read the content (the oracle models read_to_string with the
empty-string default) and scan its lines with a fresh context. -/
def build_call_graph (fs : Str → Str) (files : List ParsedFile) : CallGraph :=
  files.foldl (fun g f => processLines f.path (linesOf (fs f.path)) 0 none g)
    emptyCallGraph

/-- Module name used when a file's module path is empty. -/
def crateSeg : Str := "crate".data

/-- Module-path separator. -/
def sepColons : Str := "::".data

/-- Join path segments with a separator (Vec::join). -/
def joinSep (sep : Str) : List Str → Str
  | [] => []
  | [x] => x
  | x :: xs => x ++ sep ++ joinSep sep xs

/-- Module name of a file (gravity.rs 204-216): the joined module path
prefixed with the crate marker, or the bare crate marker when empty. -/
def moduleNameOf (module_path : List Str) : Str :=
  let j := joinSep sepColons module_path
  if j.isEmpty then crateSeg else crateSeg ++ sepColons ++ j

/-- Embedding of SemanticGravity::build_file_module_map. -/
def build_file_module_map (files : List ParsedFile) : List (Str × Str) :=
  files.foldl (fun m f => mapInsert m f.path (moduleNameOf f.module_path)) []

/-- Number of distinct strings in a list, modelling the cardinality of the
HashSet collected from it. -/
def distinctCount (l : List Str) : Nat :=
  (l.foldl (fun acc m => if m ∈ acc then acc else acc ++ [m]) []).length

/-- Embedding of SemanticGravity::count_cross_module_callers
(gravity.rs 604-616): the number of distinct module names among the
item's call sites, resolved through the file-to-module map.  No call
sites means zero. -/
def count_cross_module_callers (callers : List (Str × List CallSite))
    (file_to_module : List (Str × Str)) (item_name : Str) : Nat :=
  match mapGet callers item_name with
  | none => 0
  | some sites =>
    distinctCount (sites.filterMap (fun site => mapGet file_to_module site.file))

/-- Path separator string. -/
def slashStr : Str := "/".data

/-- Parent directory of a path: the characters before the last separator,
or the empty path when there is none (Rust Path::parent, which yields the
empty path for a bare file name; the dot fallback of resolve_mod_path only
applies to paths this model does not produce). -/
def parentDirOf (p : Str) : Str :=
  match p.reverse.dropWhile (fun c => c ≠ '/') with
  | '/' :: r => r.reverse
  | _ => []

/-- Rust Path::join restricted to relative right-hand sides: concatenate
with a separator, except that joining onto the empty path yields the name
alone. -/
def pathJoin (dir name : Str) : Str :=
  if dir.isEmpty then name else dir ++ slashStr ++ name

/-- Embedding of SemanticGravity::resolve_mod_path (gravity.rs 256-270):
prefer the direct sibling file, then the nested directory-module file,
defaulting to the direct form.  The predicate models Path::exists. -/
def resolve_mod_path (ex : Str → Bool) (parent : Str) (mod_name : Str) : Str :=
  let parentDir := parentDirOf parent
  let direct := pathJoin parentDir (mod_name ++ rsSuffix)
  if ex direct then direct
  else
    let nested := pathJoin (pathJoin parentDir mod_name) modRsSeg
    if ex nested then nested else direct

/-- Conventional library-root path under the project root. -/
def srcLibRs : Str := "src/lib.rs".data

/-- Conventional binary-root path under the project root. -/
def srcMainRs : Str := "src/main.rs".data

/-- Entry file selection (gravity.rs 567-571): the library root when it
exists, else the binary root. -/
def entryOf (ex : Str → Bool) (root : Str) : Str :=
  if ex (pathJoin root srcLibRs) then pathJoin root srcLibRs
  else pathJoin root srcMainRs

/-- Push the unvisited resolved sub-module files of one parsed file onto
the frontier (gravity.rs 583-592).  The frontier list's head is the top of
the Vec used as a stack, so pushes prepend and the last item pushed is
popped first, exactly as Vec::push and Vec::pop behave. -/
def pushMods (ex : Str → Bool) (f : ParsedFile) (path : Str) (dist : Nat)
    (visited : List Str) (queue : List (Str × Nat)) : List (Str × Nat) :=
  f.items.foldl (fun q item =>
    match item.kind with
    | .Mod _ =>
      let mp := resolve_mod_path ex path item.name
      if mp ∈ visited then q else (mp, dist + 1) :: q
    | _ => q) queue

/-- Fuelled embedding of the traversal loop of compute_distances
(gravity.rs 576-593): pop the most recently pushed pair, skip visited
paths, otherwise record the distance and push the file's sub-modules.
Returns none only when the fuel runs out before the frontier empties. -/
def distLoop (files : List ParsedFile) (ex : Str → Bool) :
    Nat → List (Str × Nat) → List Str → List (Str × Nat) →
    Option (List (Str × Nat))
  | _, [], _, cache => some cache
  | 0, _ :: _, _, _ => none
  | fuel + 1, (path, dist) :: rest, visited, cache =>
    if path ∈ visited then distLoop files ex fuel rest visited cache
    else
      let visited1 := path :: visited
      let cache1 := mapInsert cache path dist
      let queue1 :=
        match files.find? (fun f => f.path == path) with
        | some f => pushMods ex f path dist visited1 rest
        | none => rest
      distLoop files ex fuel queue1 visited1 cache1

/-- Maximum recorded distance (values().max() with the zero default of
gravity.rs 595). -/
def maxValues (cache : List (Str × Nat)) : Nat :=
  cache.foldl (fun m p => Nat.max m p.2) 0

/-- Fallback assignment of compute_distances (gravity.rs 595-600): every
parsed file absent from the cache receives one more than the maximum
recorded distance. -/
def applyFallback (files : List ParsedFile) (cache : List (Str × Nat)) :
    List (Str × Nat) :=
  let maxDist := maxValues cache + 1
  files.foldl (fun c f => mapEntryOrInsert c f.path maxDist) cache

/-- Embedding of SemanticGravity::compute_distances (gravity.rs 564-601):
run the traversal from the entry file, then apply the fallback. -/
def compute_distances (fuel : Nat) (files : List ParsedFile)
    (ex : Str → Bool) (root : Str) : Option (List (Str × Nat)) :=
  (distLoop files ex fuel [(entryOf ex root, 0)] [] []).map
    (applyFallback files)

/-- Scoring weight (gravity.rs weights module): cross-module usage. -/
def CROSS_MODULE_USAGE : Int := 50

/-- Scoring weight: public visibility. -/
def PUB_VISIBILITY : Int := 20

/-- Scoring weight: generic depth. -/
def GENERIC_DEPTH : Int := 15

/-- Scoring weight: test penalty. -/
def IS_TEST_PENALTY : Int := -80

/-- Scoring weight: work-site bonus. -/
def SITE_BONUS : Int := 30

/-- Scoring weight: utility penalty. -/
def UTILITY_PENALTY : Int := -20

/-- Scoring weight: entry-distance penalty. -/
def ENTRY_DISTANCE_PENALTY : Int := -5

/-- Scoring weight: impl richness. -/
def IMPL_RICHNESS : Int := 5

/-- Scoring weight: trait implementation. -/
def TRAIT_IMPL : Int := 3

/-- Nesting-depth scan of estimate_generic_depth (gravity.rs 645-657):
opening angle brackets increase the depth, closing ones decrease it with
saturation at zero, and the maximum depth reached is returned. -/
def genericDepthScan : Str → Nat → Nat → Nat
  | [], _, maxd => maxd
  | c :: rest, cur, maxd =>
    if c = '<' then genericDepthScan rest (cur + 1) (Nat.max maxd (cur + 1))
    else if c = '>' then genericDepthScan rest (cur - 1) maxd
    else genericDepthScan rest cur maxd

/-- Separator used when joining type texts. -/
def spaceSep : Str := " ".data

/-- Embedding of SemanticGravity::estimate_generic_depth
(gravity.rs 619-658): scan the joined parameter and return type texts of a
function, the field type texts of a struct, or the self type of an impl. -/
def estimate_generic_depth (item : ParsedItem) : Nat :=
  let text :=
    match item.kind with
    | .Function _ parameters return_type =>
      let t := joinSep spaceSep (parameters.map (fun p => p.ty))
      match return_type with
      | some ret => t ++ ret
      | none => t
    | .Struct fields _ => joinSep spaceSep (fields.map (fun f => f.ty))
    | .Impl self_type _ _ => self_type
    | _ => []
  genericDepthScan text 0 0

/-- Attribute text searched for by is_test_item. -/
def testStr : Str := "test".data

/-- Tests-directory path segment searched for by is_test_item. -/
def testsDirStr : Str := "/tests/".data

/-- Test-naming prefix searched for by is_test_item. -/
def testUnderscore : Str := "test_".data

/-- Embedding of SemanticGravity::is_test_item (gravity.rs 661-667). -/
def is_test_item (item : ParsedItem) : Bool :=
  item.attributes.any (fun attr => strContains testStr attr)
    || strContains testsDirStr item.file_path
    || strStartsWith testUnderscore item.name

/-- Embedding of SemanticGravity::build_impl_map (gravity.rs 273-287). -/
def build_impl_map (files : List ParsedFile) : List (Str × List ParsedItem) :=
  files.foldl (fun m f => f.items.foldl (fun m it =>
    match it.kind with
    | .Impl self_type _ _ => mapPush m (normalize_type_name self_type) it
    | _ => m) m) []

/-- Embedding of SemanticGravity::get_impl_info (gravity.rs 740-758): the
impl count and the implemented trait names (inherent impls counted but not
listed). -/
def get_impl_info (impl_map : List (Str × List ParsedItem))
    (type_name : Str) : Nat × List Str :=
  match mapGet impl_map type_name with
  | some impl_items =>
    (impl_items.length,
      impl_items.filterMap (fun it =>
        match it.kind with
        | .Impl _ trait_name _ => trait_name
        | _ => none))
  | none => (0, [])

/-- Score factors (types.rs ScoreFactors). -/
structure ScoreFactors where
  entry_distance : Nat
  call_count : Nat
  is_site : Bool
  impl_count : Nat
  trait_impls : List Str
  cross_module_count : Nat
  generic_depth : Nat
  is_test : Bool
deriving DecidableEq, Repr

/-- Work-site score (types.rs WorkSiteScore).  The score is modelled in
exact integer arithmetic: every weight and factor is integral, and the
claims settled here only concern the sign and the floor, which the
floating-point rounding of the source cannot affect. -/
structure WorkSiteScore where
  item : ParsedItem
  score : Int
  factors : ScoreFactors
deriving DecidableEq, Repr

/-- The derived structures of SemanticGravity consulted by score_item. -/
structure GravityState where
  callers : List (Str × List CallSite)
  callees : List (Str × List Str)
  file_to_module : List (Str × Str)
  impl_map : List (Str × List ParsedItem)
  distance_cache : List (Str × Nat)

/-- The usize::MAX sentinel used for items whose file has no cached
distance (64-bit target). -/
def USIZE_MAX : Nat := 2 ^ 64 - 1

/-- Embedding of SemanticGravity::score_item (gravity.rs 670-737): derive
the factors, accumulate the weighted terms over the base score of 100, and
floor the result at zero. -/
def score_item (st : GravityState) (item : ParsedItem) : WorkSiteScore :=
  let entry_distance := (mapGet st.distance_cache item.file_path).getD USIZE_MAX
  let call_count := ((mapGet st.callers item.name).map List.length).getD 0
  let cross_module_count :=
    count_cross_module_callers st.callers st.file_to_module item.name
  let generic_depth := estimate_generic_depth item
  let is_test := is_test_item item
  let is_site : Bool := decide (0 < call_count ∧ call_count ≤ 3)
  let info := get_impl_info st.impl_map item.name
  let score1 : Int := 100 + (cross_module_count : Int) * CROSS_MODULE_USAGE
  let score2 :=
    if item.visibility = Visibility.Public then score1 + PUB_VISIBILITY
    else score1
  let score3 := score2 + (generic_depth : Int) * GENERIC_DEPTH
  let score4 := if is_test then score3 + IS_TEST_PENALTY else score3
  let score5 := score4 + (entry_distance : Int) * ENTRY_DISTANCE_PENALTY
  let score6 :=
    if is_site then score5 + SITE_BONUS
    else if 10 < call_count then score5 + UTILITY_PENALTY
    else score5
  let score7 := score6 + (info.1 : Int) * IMPL_RICHNESS
    + (info.2.length : Int) * TRAIT_IMPL
  { item := item
    score := max score7 0
    factors :=
      { entry_distance := entry_distance
        call_count := call_count
        is_site := is_site
        impl_count := info.1
        trait_impls := info.2
        cross_module_count := cross_module_count
        generic_depth := generic_depth
        is_test := is_test } }

/-- Comparison relation of get_all_external_symbols: usage counts in
non-increasing order (the sort_by comparator b.cmp(a) on counts). -/
def countGe (a b : Str × Nat) : Prop := b.2 ≤ a.2

instance : DecidableRel countGe := fun a b => (inferInstance : Decidable (b.2 ≤ a.2))

instance : IsTotal (Str × Nat) countGe := ⟨fun a b => Nat.le_total b.2 a.2⟩

instance : IsTrans (Str × Nat) countGe := ⟨fun _ _ _ hab hbc => Nat.le_trans hbc hab⟩

/-- Embedding of SemanticGravity::get_all_external_symbols
(gravity.rs 806-815): map the reference map's entries, in whatever order
the hash map enumerates them, to usage counts, then stable-sort by count
descending.  Insertion sort with this relation is stable and sorted, so it
produces the same list as the source's stable sort for any enumeration
order. -/
def get_all_external_symbols (refs : List (Str × List ExternalReference)) :
    List (Str × Nat) :=
  List.insertionSort countGe (refs.map (fun p => (p.1, p.2.length)))

/-- Convert an Except to an Option, modelling Result::ok. -/
def exceptToOption {ε α : Type} : Except ε α → Option α
  | .ok a => some a
  | .error _ => none

/-- Whether an Except is the error case. -/
def exceptIsErr {ε α : Type} : Except ε α → Bool
  | .error _ => true
  | .ok _ => false

/-- Build-output directory fragment excluded by parse_project. -/
def targetDirSeg : Str := "/target/".data

/-- Recognised source-file extension. -/
def rsExt : Str := "rs".data

/-- File name component of a path: the characters after the last
separator. -/
def fileNameOf (p : Str) : Str :=
  (p.reverse.takeWhile (fun c => c ≠ '/')).reverse

/-- Rust Path::extension: the portion of the file name after its final
dot, none when there is no dot or when the only dot leads the name. -/
def pathExtension (p : Str) : Option Str :=
  let revName := (fileNameOf p).reverse
  let extRev := revName.takeWhile (fun c => c ≠ '.')
  match revName.drop extRev.length with
  | ['.'] => none
  | '.' :: _ => some extRev.reverse
  | _ => none

/-- Extension filter of parse_project (parser.rs 47). -/
def hasRsExtension (p : Str) : Bool := pathExtension p == some rsExt

/-- Embedding of PartialParser::parse_project (parser.rs 40-61): the walk
oracle yields the directory entries in traversal order, error entries are
discarded by the ok filter, recognised source paths outside build output
are parsed, per-file failures are logged and skipped, and the function
always returns the ok case. -/
def parse_project (walk : List (Except Str Str))
    (readF : Str → Except Str Str) (syn : SynOracle) :
    Except Str (List ParsedFile) :=
  let paths := (walk.filterMap exceptToOption).filter
    (fun p => hasRsExtension p && !(strContains targetDirSeg p))
  Except.ok (paths.filterMap (fun p => exceptToOption (parse_file readF syn p)))

/-- Error surface of SemanticGravity::analyze_project (gravity.rs
175-201): the parse stage's error is mapped into the gravity error and
every later stage (module map, module tree, impl map, call graph,
reference map, distances) returns unit or an unconditional ok in the
source, so the overall result is an error exactly when parse_project's
is. -/
def analyzeOutcome (walk : List (Except Str Str))
    (readF : Str → Except Str Str) (syn : SynOracle) : Except Str Unit :=
  match parse_project walk readF syn with
  | .error e => .error e
  | .ok _ => .ok ()

/-- Items contributed by one chunk in parse_partial: the shifted extracted
items on success, the single unknown placeholder on failure. -/
def chunkOutItems (syn : SynOracle) (path : Str) (c : ItemChunk) :
    List ParsedItem :=
  match parse_chunk syn path c.text with
  | .ok parsed => shiftItems c.start_line parsed
  | .error msg => [mkUnknownItem path c msg]

/-- Errors contributed by one chunk in parse_partial: exactly one on
failure, none on success. -/
def chunkOutErrors (syn : SynOracle) (path : Str) (c : ItemChunk) :
    List ParseError :=
  match parse_chunk syn path c.text with
  | .ok _ => []
  | .error msg => [mkChunkError c msg]

/-- Whether re-parsing a chunk fails. -/
def failsChunk (syn : SynOracle) (path : Str) (c : ItemChunk) : Bool :=
  exceptIsErr (parse_chunk syn path c.text)

/-- Project root used by the synthetic scenarios. -/
def rootDot : Str := ".".data

/-- Entry file path of the synthetic scenarios. -/
def mainPathS : Str := "./src/main.rs".data

/-- Path of sibling module file a. -/
def aPathS : Str := "./src/a.rs".data

/-- Path of sibling module file b. -/
def bPathS : Str := "./src/b.rs".data

/-- Entry file content: two sibling module declarations. -/
def mainContentS : Str := "mod a;\nmod b;\n".data

/-- Content of module a: a public function called from within the same
module by a sibling helper. -/
def aContentS : Str :=
  "pub fn target() \x7b \x7d\nfn helper() \x7b target(); \x7d\n".data

/-- Content of module b: a function calling into module a. -/
def bContentS : Str := "fn user() \x7b target(); \x7d\n".data

/-- Name of the cross-module-called function. -/
def nameTarget : Str := "target".data

/-- Name of the same-module caller. -/
def nameHelper : Str := "helper".data

/-- Name of the cross-module caller. -/
def nameUser : Str := "user".data

/-- Name of module a. -/
def nameA : Str := "a".data

/-- Name of module b. -/
def nameB : Str := "b".data

/-- File-system content oracle of the scenario (read_to_string with the
empty default). -/
def fsS : Str → Str := fun p =>
  if p = mainPathS then mainContentS
  else if p = aPathS then aContentS
  else if p = bPathS then bContentS
  else []

/-- File-existence oracle of the scenario. -/
def exS : Str → Bool := fun p =>
  p == mainPathS || p == aPathS || p == bPathS

/-- Function item as the whole-file parse of the scenario files would
extract it. -/
def mkFnItem (nm : Str) (vis : Visibility) (fp : Str) : ParsedItem :=
  { kind := ItemKind.Function false [] none
    name := nm
    visibility := vis
    span := spanDefault
    file_path := fp
    attributes := []
    doc_comment := none }

/-- Non-inline module-declaration item. -/
def mkModItem (nm : Str) (fp : Str) : ParsedItem :=
  { kind := ItemKind.Mod false
    name := nm
    visibility := Visibility.Private
    span := spanDefault
    file_path := fp
    attributes := []
    doc_comment := none }

/-- Parsed entry file of the scenario. -/
def mainFileS : ParsedFile :=
  { path := mainPathS
    items := [mkModItem nameA mainPathS, mkModItem nameB mainPathS]
    parse_errors := []
    module_path := derive_module_path mainPathS }

/-- Parsed module a of the scenario. -/
def aFileS : ParsedFile :=
  { path := aPathS
    items := [mkFnItem nameTarget Visibility.Public aPathS,
      mkFnItem nameHelper Visibility.Private aPathS]
    parse_errors := []
    module_path := derive_module_path aPathS }

/-- Parsed module b of the scenario. -/
def bFileS : ParsedFile :=
  { path := bPathS
    items := [mkFnItem nameUser Visibility.Private bPathS]
    parse_errors := []
    module_path := derive_module_path bPathS }

/-- Parsed file set of the scenario. -/
def filesS : List ParsedFile := [mainFileS, aFileS, bFileS]

/-- Call graph built by the engine on the scenario. -/
def callGraphS : CallGraph := build_call_graph fsS filesS

/-- File-to-module map of the scenario. -/
def fileModuleMapS : List (Str × Str) := build_file_module_map filesS

/-- Impl map of the scenario (empty: no impl items). -/
def implMapS : List (Str × List ParsedItem) := build_impl_map filesS

/-- Distance cache of the scenario. -/
def distCacheS : List (Str × Nat) :=
  (compute_distances 16 filesS exS rootDot).getD []

/-- Full derived state of the scenario. -/
def stateS : GravityState :=
  { callers := callGraphS.callers
    callees := callGraphS.callees
    file_to_module := fileModuleMapS
    impl_map := implMapS
    distance_cache := distCacheS }

/-- The target function's item, as parsed in module a. -/
def targetItemS : ParsedItem := mkFnItem nameTarget Visibility.Public aPathS

/-- Orphan file unreachable from the entry point, for the distance
fallback scenario. -/
def orphanPathS : Str := "./src/orphan.rs".data

/-- Parsed orphan file. -/
def orphanFileS : ParsedFile :=
  { path := orphanPathS
    items := []
    parse_errors := []
    module_path := derive_module_path orphanPathS }

/-- File set of the distance fallback scenario: the reachable scenario
files plus the orphan. -/
def filesC8 : List ParsedFile := [mainFileS, aFileS, bFileS, orphanFileS]

/-- Cache recorded by the traversal on the fallback scenario: the entry at
distance zero, then the two sibling modules at distance one, in the order
the depth-first stack pops them. -/
def preC8 : List (Str × Nat) := [(mainPathS, 0), (bPathS, 1), (aPathS, 1)]

/-- Name with the test prefix, for the score-floor scenario. -/
def nameTestHelper : Str := "test_helper".data

/-- Caller name of the score-floor call sites. -/
def floorCallerName : Str := "c1".data

/-- File of the score-floor call sites. -/
def floorSiteFile : Str := "other.rs".data

/-- One call site of the score-floor scenario. -/
def floorSite : CallSite :=
  { caller := floorCallerName, file := floorSiteFile, line := 1 }

/-- File of the score-floor item, absent from the distance cache so the
entry distance defaults to the very large sentinel. -/
def floorFilePath : Str := "deep.rs".data

/-- State of the score-floor scenario: eleven call sites (utility
penalty), no module resolution (zero cross-module usage), no impls, empty
distance cache. -/
def floorState : GravityState :=
  { callers := [(nameTestHelper, List.replicate 11 floorSite)]
    callees := []
    file_to_module := []
    impl_map := []
    distance_cache := [] }

/-- Item of the score-floor scenario: private test-named function with no
generics. -/
def floorItem : ParsedItem :=
  mkFnItem nameTestHelper Visibility.Private floorFilePath

/-- A module-scope line with a call-like occurrence but no
function-introducing token, for the dropped-prefix scenario. -/
def preLineCall : Str := "target();".data

/-- Walk error message of the missing-root scenario. -/
def walkErrMsg : Str := "IO error: No such file or directory".data

/-- Second walk error message. -/
def walkErrMsg2 : Str := "IO error: permission denied".data

/-- Walk result for a root that cannot be traversed: the walker yields a
single error entry. -/
def badWalk : List (Except Str Str) := [Except.error walkErrMsg]

/-- Walk result with two error entries, for the witness. -/
def badWalk2 : List (Except Str Str) :=
  [Except.error walkErrMsg, Except.error walkErrMsg2]

/-- Read oracle that always fails. -/
def readAlwaysErr : Str → Except Str Str := fun _ => Except.error walkErrMsg

/-- Error message of the failing external parser. -/
def synErrMsg : Str := "unexpected token".data

/-- External-parser oracle that always fails. -/
def synAlwaysErr : SynOracle := fun _ => Except.error synErrMsg

/-- Path of the partially parseable file scenario. -/
def pathP : Str := "./src/broken.rs".data

/-- Content with a valid first item, a structurally broken second item and
a valid third item, so the whole-file parse fails and chunked recovery
runs. -/
def contentP : Str :=
  "fn a() \x7b \x7d\nfn bad( \x7b \x7d\nfn b() \x7b \x7d".data

/-- First chunk of the content: the valid leading function. -/
def chunk1Text : Str := "fn a() \x7b \x7d".data

/-- Second chunk: the broken function with an unclosed parenthesis. -/
def chunk2Text : Str := "\nfn bad( \x7b \x7d".data

/-- Third chunk: the valid trailing function. -/
def chunk3Text : Str := "\nfn b() \x7b \x7d".data

/-- Name of the synthetic wrapper scope module item that extract_items
pushes when visiting the wrapped chunk. -/
def wrapperName : Str := "__wrapper__".data

/-- The wrapper module item extracted from every successfully re-parsed
wrapped chunk (the ItemVisitor pushes the wrapper Mod itself before its
children, with the default zero span). -/
def synWrapperMod : SynItem :=
  { kind := ItemKind.Mod true
    name := wrapperName
    visibility := Visibility.Private
    attributes := []
    doc_comment := none
    kind_not_unknown := rfl }

/-- Extracted item for the first chunk's function. -/
def synFnA : SynItem :=
  { kind := ItemKind.Function false [] none
    name := nameA
    visibility := Visibility.Private
    attributes := []
    doc_comment := none
    kind_not_unknown := rfl }

/-- Extracted item for the third chunk's function. -/
def synFnB : SynItem :=
  { kind := ItemKind.Function false [] none
    name := nameB
    visibility := Visibility.Private
    attributes := []
    doc_comment := none
    kind_not_unknown := rfl }

/-- External-parser oracle of the partial-parse scenario: the whole file
and the broken wrapped chunk fail, the two valid wrapped chunks succeed
with the wrapper module plus the contained function. -/
def synP : SynOracle := fun s =>
  if s = wrapChunk chunk1Text then Except.ok [synWrapperMod, synFnA]
  else if s = wrapChunk chunk3Text then Except.ok [synWrapperMod, synFnB]
  else Except.error synErrMsg

/-- Read oracle of the partial-parse scenario. -/
def readP : Str → Except Str Str := fun p =>
  if p = pathP then Except.ok contentP else Except.error walkErrMsg

/-- Result of partial parsing the scenario content. -/
def parsedP : ParsedFile :=
  parse_partial_file synP pathP contentP (derive_module_path pathP)

/-- Recorded span start lines of the scenario's items. -/
def parsedPStarts : List Nat :=
  parsedP.items.map (fun it => it.span.start_line)

/-- Placeholder parse error used only as a headD default. -/
def dummyError : ParseError := { message := [], span := none, raw_text := [] }

/-- Placeholder item used only as a headD default. -/
def dummyItem : ParsedItem := mkFnItem [] Visibility.Private []

/-- The recorded parse error of the scenario (the broken middle chunk). -/
def errP : ParseError := parsedP.parse_errors.headD dummyError

/-- The first recovered item of the scenario. -/
def itP : ParsedItem := parsedP.items.headD dummyItem

/-- Qualified path of the first external-reference example. -/
def extPathA : Str := "serde::de".data

/-- Qualified path of the second external-reference example. -/
def extPathB : Str := "tokio::spawn".data

/-- Module-scope sentinel context of the reference builder. -/
def moduleSentinel : Str := "<module>".data

/-- One usage of the first external path. -/
def refA : ExternalReference :=
  { external_path := extPathA
    file := mainPathS
    line := 1
    caller_context := moduleSentinel
    complexity := 0 }

/-- One usage of the second external path. -/
def refB : ExternalReference :=
  { external_path := extPathB
    file := mainPathS
    line := 2
    caller_context := moduleSentinel
    complexity := 0 }

/-- One enumeration order of a reference map with two singleton entries. -/
def refsOrder1 : List (Str × List ExternalReference) :=
  [(extPathA, [refA]), (extPathB, [refB])]

/-- The other enumeration order of the same reference map. -/
def refsOrder2 : List (Str × List ExternalReference) :=
  [(extPathB, [refB]), (extPathA, [refA])]

theorem trimStartWs_noLead : ∀ s : Str, trimStartWs s = [] ∨
    ∃ c t, trimStartWs s = c :: t ∧ isWsChar c = false := by
  intro s
  induction s with
  | nil => exact Or.inl rfl
  | cons c xs ih =>
    by_cases h : isWsChar c
    · simpa [trimStartWs, h] using ih
    · exact Or.inr ⟨c, xs, by simp [trimStartWs, h], by simpa using h⟩

theorem trimEndWs_idem : ∀ s : Str, trimEndWs (trimEndWs s) = trimEndWs s := by
  intro s
  induction s with
  | nil => rfl
  | cons c xs ih =>
    cases hr : trimEndWs xs with
    | nil =>
      by_cases h : isWsChar c
      · simp [trimEndWs, hr, h]
      · simp [trimEndWs, hr, h]
    | cons d r =>
      have ih' : trimEndWs (d :: r) = d :: r := by rw [← hr]; exact ih
      have h1 : trimEndWs (c :: xs) = c :: d :: r := by
        rw [trimEndWs, hr]
      rw [h1, trimEndWs, ih']

theorem trimEndWs_cons_noLead (c : Char) (t : Str) (h : isWsChar c = false) :
    ∃ t', trimEndWs (c :: t) = c :: t' := by
  cases hr : trimEndWs t with
  | nil => exact ⟨[], by rw [trimEndWs, hr]; simp [h]⟩
  | cons d r => exact ⟨d :: r, by rw [trimEndWs, hr]⟩

theorem trimStartWs_eq_of_noLead (c : Char) (t : Str) (h : isWsChar c = false) :
    trimStartWs (c :: t) = c :: t := by
  simp [trimStartWs, h]

theorem trimWs_idem (s : Str) : trimWs (trimWs s) = trimWs s := by
  unfold trimWs
  rcases trimStartWs_noLead s with h | ⟨c, t, hct, hc⟩
  · simp [h, trimEndWs, trimStartWs]
  · rw [hct]
    obtain ⟨t', ht'⟩ := trimEndWs_cons_noLead c t hc
    rw [ht', trimStartWs_eq_of_noLead c t' hc, ← ht', trimEndWs_idem]

theorem takeUntilLt_no_lt : ∀ s : Str, '<' ∉ takeUntilLt s := by
  intro s
  induction s with
  | nil => simp [takeUntilLt]
  | cons c xs ih =>
    by_cases h : c = '<'
    · simp [takeUntilLt, h]
    · simp only [takeUntilLt, if_neg h]
      intro hmem
      rcases List.mem_cons.mp hmem with h1 | h2
      · exact h h1.symm
      · exact ih h2

theorem takeUntilLt_eq_of_no_lt : ∀ s : Str, '<' ∉ s → takeUntilLt s = s := by
  intro s
  induction s with
  | nil => intro _; rfl
  | cons c xs ih =>
    intro h
    have hc : c ≠ '<' := fun hce => h (by simp [hce])
    have hxs : '<' ∉ xs := fun hm => h (by simp [hm])
    simp only [takeUntilLt, if_neg hc]
    rw [ih hxs]

theorem mem_of_mem_trimStartWs : ∀ s : Str, ∀ a, a ∈ trimStartWs s → a ∈ s := by
  intro s
  induction s with
  | nil => intro a h; simp [trimStartWs] at h
  | cons c xs ih =>
    intro a h
    by_cases hc : isWsChar c
    · exact List.mem_cons_of_mem c (ih a (by simpa [trimStartWs, hc] using h))
    · simpa [trimStartWs, hc] using h

theorem mem_of_mem_trimEndWs : ∀ s : Str, ∀ a, a ∈ trimEndWs s → a ∈ s := by
  intro s
  induction s with
  | nil => intro a h; simp [trimEndWs] at h
  | cons c xs ih =>
    intro a h
    cases hr : trimEndWs xs with
    | nil =>
      by_cases hc : isWsChar c
      · simp [trimEndWs, hr, hc] at h
      · simp [trimEndWs, hr, hc] at h
        simp [h]
    | cons d r =>
      rw [trimEndWs, hr] at h
      rcases List.mem_cons.mp h with h1 | h2
      · simp [h1]
      · exact List.mem_cons_of_mem c (ih a (hr ▸ h2))

theorem mem_of_mem_trimWs (s : Str) (a : Char) (h : a ∈ trimWs s) : a ∈ s :=
  mem_of_mem_trimStartWs s a (mem_of_mem_trimEndWs (trimStartWs s) a h)

theorem normalize_no_lt (s : Str) : '<' ∉ normalize_type_name s := by
  intro h
  exact takeUntilLt_no_lt (stripMut (stripAmp s))
    (mem_of_mem_trimWs (takeUntilLt (stripMut (stripAmp s))) '<' h)

theorem normalize_trimmed (s : Str) :
    trimWs (normalize_type_name s) = normalize_type_name s := by
  unfold normalize_type_name
  exact trimWs_idem (takeUntilLt (stripMut (stripAmp s)))

/-- Claim C5, counterexample: type-name normalization is not idempotent in
general.  On the input consisting of a space followed by an ampersand and a
name, the first pass only trims the space (the ampersand is not leading, so
it survives), while the second pass then strips the ampersand, so the two
results differ. -/
theorem normalize_not_idempotent_cx :
    normalize_type_name (normalize_type_name exSpaceAmp) ≠
      normalize_type_name exSpaceAmp := by decide

/-- Claim C5 (amended): normalize_type_name maps the reference-to-mutable-Vec
example to the bare Vec name and the referenced-struct example to the bare
struct name, and it is idempotent on every input whose normalized form does
not itself still begin with a reference marker or a mutability marker (the
only situations, exhibited by the counterexample, in which a second pass can
strip further). -/
theorem normalize_examples_and_conditional_idem :
    normalize_type_name exMutVec = exVecName ∧
    normalize_type_name exRefStruct = exStructName ∧
    ∀ s : Str, stripAmp (normalize_type_name s) = normalize_type_name s →
      stripMut (normalize_type_name s) = normalize_type_name s →
      normalize_type_name (normalize_type_name s) = normalize_type_name s := by
  refine ⟨by decide, by decide, ?_⟩
  intro s h1 h2
  show trimWs (takeUntilLt (stripMut (stripAmp (normalize_type_name s)))) =
    normalize_type_name s
  rw [h1, h2, takeUntilLt_eq_of_no_lt _ (normalize_no_lt s), normalize_trimmed]

/-- Witness for the amended C5 theorem at a concrete input. -/
theorem normalize_examples_and_conditional_idem_witness :
    normalize_type_name (normalize_type_name exRefStruct) =
      normalize_type_name exRefStruct :=
  normalize_examples_and_conditional_idem.2.2 exRefStruct (by decide) (by decide)

theorem processLine_no_fn (filePath : Str) (n : Nat) (l : Str) (g : CallGraph)
    (h : strContains fnSpace l = false ∨ extract_fn_name l = none) :
    processLine filePath n l none g = (none, g) := by
  unfold processLine updateFnContext
  rcases h with h | h
  · simp [h]
  · cases hc : strContains fnSpace l <;> simp [h, hc]

/-- Claim C10: call-like and method-call-like occurrences on lines that
precede the first function-introducing line are dropped entirely.  When no
line of a prefix contains the function token with an extractable name, the
call graph built from the whole line list equals the one built from the
remaining lines alone (with line numbering continued past the prefix): the
prefix contributes no callers entry and no callees entry, and no sentinel
context is recorded. -/
theorem call_graph_drops_prefn_lines (filePath : Str) (pre rest : List Str)
    (n : Nat) (g : CallGraph)
    (h : ∀ l ∈ pre, strContains fnSpace l = false ∨ extract_fn_name l = none) :
    processLines filePath (pre ++ rest) n none g =
      processLines filePath rest (n + pre.length) none g := by
  induction pre generalizing n with
  | nil => simp
  | cons l pre ih =>
    have h0 := h l (List.mem_cons_self l pre)
    have hrest : ∀ l' ∈ pre,
        strContains fnSpace l' = false ∨ extract_fn_name l' = none :=
      fun l' hl' => h l' (List.mem_cons_of_mem l hl')
    simp only [List.cons_append, processLines]
    rw [processLine_no_fn filePath n l g h0]
    show processLines filePath (pre ++ rest) (n + 1) none g =
      processLines filePath rest (n + (l :: pre).length) none g
    rw [ih (n + 1) hrest]
    have heq : n + 1 + pre.length = n + (l :: pre).length := by
      simp [List.length_cons]; omega
    rw [heq]

/-- Witness for the C10 theorem: a module-scope line carrying a call-like
occurrence, processed with no function context, leaves the call graph
empty. -/
theorem call_graph_drops_prefn_lines_witness :
    processLines aPathS ([preLineCall] ++ []) 0 none emptyCallGraph =
      emptyCallGraph :=
  (call_graph_drops_prefn_lines aPathS [preLineCall] [] 0 emptyCallGraph
    (by decide)).trans rfl

/-- Claim C1, counterexample: in the sibling-module scenario (module a's
function called from module b and from within module a itself), the
engine's cross-module count for that function is not one: the source
counts every distinct module among the call sites, including the item's
own module, so it reports two. -/
theorem cross_module_count_scenario_ne_one :
    count_cross_module_callers callGraphS.callers fileModuleMapS nameTarget
      ≠ 1 := by decide

/-- Claim C1 (amended): in the sibling-module scenario the scoring
engine's cross-module count for the target function equals two, the number
of distinct modules among all its call sites with no exclusion of the
item's own module. -/
theorem cross_module_count_scenario_eq_two :
    (score_item stateS targetItemS).factors.cross_module_count = 2 ∧
    count_cross_module_callers callGraphS.callers fileModuleMapS nameTarget
      = 2 := by
  exact ⟨by decide, by decide⟩

theorem foldl_parseStep_eq (syn : SynOracle) (path : Str) :
    ∀ (cs : List ItemChunk) (acc : List ParsedItem × List ParseError),
      cs.foldl (parseStep syn path) acc =
        (acc.1 ++ (cs.map (chunkOutItems syn path)).flatten,
          acc.2 ++ (cs.map (chunkOutErrors syn path)).flatten) := by
  intro cs
  induction cs with
  | nil => intro acc; cases acc; simp
  | cons c cs ih =>
    intro acc
    rw [List.foldl_cons, ih]
    cases hp : parse_chunk syn path c.text with
    | ok parsed =>
      simp [parseStep, chunkOutItems, chunkOutErrors, hp, List.append_assoc]
    | error msg =>
      simp [parseStep, chunkOutItems, chunkOutErrors, hp, List.append_assoc]

theorem parse_partial_items_eq (syn : SynOracle) (path content : Str)
    (mp : List Str) :
    (parse_partial_file syn path content mp).items =
        ((split_into_items content).map (chunkOutItems syn path)).flatten ∧
    (parse_partial_file syn path content mp).parse_errors =
        ((split_into_items content).map (chunkOutErrors syn path)).flatten := by
  unfold parse_partial_file
  rw [foldl_parseStep_eq]
  simp

theorem chunkOutErrors_length (syn : SynOracle) (path : Str) (c : ItemChunk) :
    (chunkOutErrors syn path c).length =
      if failsChunk syn path c then 1 else 0 := by
  unfold chunkOutErrors failsChunk
  cases hp : parse_chunk syn path c.text <;> simp [exceptIsErr]

theorem countP_unknown_shift_syn (off : Nat) (path : Str)
    (items : List SynItem) :
    (shiftItems off (items.map (synToParsed path))).countP
      (fun it => it.kind.isUnknownK) = 0 := by
  induction items with
  | nil => rfl
  | cons si rest ih =>
    have h1 : shiftItems off ((si :: rest).map (synToParsed path)) =
        { synToParsed path si with
            span := shiftSpanBy off (synToParsed path si).span } ::
          shiftItems off (rest.map (synToParsed path)) := rfl
    rw [h1, List.countP_cons, ih]
    simp [synToParsed, si.kind_not_unknown]

theorem chunkOutItems_unknown_count (syn : SynOracle) (path : Str)
    (c : ItemChunk) :
    (chunkOutItems syn path c).countP (fun it => it.kind.isUnknownK) =
      if failsChunk syn path c then 1 else 0 := by
  unfold chunkOutItems failsChunk parse_chunk
  cases hs : syn (wrapChunk c.text) with
  | error e => simp [exceptIsErr, List.countP_cons, mkUnknownItem,
      ItemKind.isUnknownK]
  | ok items => simp [exceptIsErr, countP_unknown_shift_syn]

theorem errors_join_length (syn : SynOracle) (path : Str) :
    ∀ cs : List ItemChunk,
      ((cs.map (chunkOutErrors syn path)).flatten).length =
        cs.countP (failsChunk syn path) := by
  intro cs
  induction cs with
  | nil => rfl
  | cons c cs ih =>
    rw [List.map_cons, List.flatten_cons, List.length_append, ih,
      chunkOutErrors_length, List.countP_cons]
    cases hf : failsChunk syn path c
    · simp [hf]
    · simp [hf]
      omega

theorem items_join_unknown_countP (syn : SynOracle) (path : Str) :
    ∀ cs : List ItemChunk,
      ((cs.map (chunkOutItems syn path)).flatten).countP
        (fun it => it.kind.isUnknownK) = cs.countP (failsChunk syn path) := by
  intro cs
  induction cs with
  | nil => rfl
  | cons c cs ih =>
    rw [List.map_cons, List.flatten_cons, List.countP_append, ih,
      chunkOutItems_unknown_count, List.countP_cons]
    cases hf : failsChunk syn path c
    · simp [hf]
    · simp [hf]
      omega

/-- Claim C7: parse_file only fails when reading the file fails.  When the
read oracle succeeds, parse_file returns a ParsedFile; and in the partial
fallback, the recovered errors are in one-to-one correspondence with the
failing chunks, and so are the appended unknown items (successfully
re-parsed chunks never contribute unknown items, since the extractor has
no unknown arm). -/
theorem parse_file_never_fatal (readF : Str → Except Str Str)
    (syn : SynOracle) (path content : Str)
    (h : readF path = Except.ok content) :
    (∃ pf, parse_file readF syn path = Except.ok pf) ∧
    (parse_partial_file syn path content
        (derive_module_path path)).parse_errors.length
      = (split_into_items content).countP (failsChunk syn path) ∧
    ((parse_partial_file syn path content
        (derive_module_path path)).items.filter
      (fun it => it.kind.isUnknownK)).length
      = (split_into_items content).countP (failsChunk syn path) := by
  refine ⟨?_, ?_, ?_⟩
  · unfold parse_file
    rw [h]
    show ∃ pf, (match syn content with
      | Except.ok items =>
        Except.ok
          { path := path
            items := items.map (synToParsed path)
            parse_errors := []
            module_path := derive_module_path path }
      | Except.error _ =>
        Except.ok (parse_partial_file syn path content
          (derive_module_path path))) = Except.ok pf
    cases hs : syn content
    · exact ⟨_, rfl⟩
    · exact ⟨_, rfl⟩
  · rw [(parse_partial_items_eq syn path content
      (derive_module_path path)).2, errors_join_length]
  · rw [← List.countP_eq_length_filter, (parse_partial_items_eq syn path
      content (derive_module_path path)).1, items_join_unknown_countP]

/-- Witness for the C7 theorem on the concrete broken-file scenario. -/
theorem parse_file_never_fatal_witness :
    (∃ pf, parse_file readP synP pathP = Except.ok pf) ∧
    (parse_partial_file synP pathP contentP
        (derive_module_path pathP)).parse_errors.length
      = (split_into_items contentP).countP (failsChunk synP pathP) ∧
    ((parse_partial_file synP pathP contentP
        (derive_module_path pathP)).items.filter
      (fun it => it.kind.isUnknownK)).length
      = (split_into_items contentP).countP (failsChunk synP pathP) :=
  parse_file_never_fatal readP synP pathP contentP rfl

/-- Claim C9: for every recovered chunk failure, the recorded ParseError
keeps exactly the first 200 characters of the chunk text, and the unknown
item's raw text keeps exactly the first 500 characters, so longer chunks
are never retained in full. -/
theorem parse_error_truncation (syn : SynOracle) (path content : Str)
    (mp : List Str) :
    (∀ e ∈ (parse_partial_file syn path content mp).parse_errors,
      ∃ c ∈ split_into_items content, e.raw_text = c.text.take 200) ∧
    (∀ it ∈ (parse_partial_file syn path content mp).items, ∀ raw err,
      it.kind = ItemKind.Unknown raw err →
        ∃ c ∈ split_into_items content, raw = c.text.take 500) := by
  have heq := parse_partial_items_eq syn path content mp
  constructor
  · intro e he
    rw [heq.2, List.mem_flatten] at he
    obtain ⟨l, hl, hel⟩ := he
    rw [List.mem_map] at hl
    obtain ⟨c, hc, rfl⟩ := hl
    refine ⟨c, hc, ?_⟩
    unfold chunkOutErrors at hel
    cases hp : parse_chunk syn path c.text with
    | ok _ => rw [hp] at hel; simp at hel
    | error msg =>
      rw [hp] at hel
      simp at hel
      rw [hel]
      rfl
  · intro it hit raw err hkind
    rw [heq.1, List.mem_flatten] at hit
    obtain ⟨l, hl, hil⟩ := hit
    rw [List.mem_map] at hl
    obtain ⟨c, hc, rfl⟩ := hl
    refine ⟨c, hc, ?_⟩
    unfold chunkOutItems parse_chunk at hil
    cases hs : syn (wrapChunk c.text) with
    | ok items =>
      rw [hs] at hil
      simp only [] at hil
      have hnu := List.countP_eq_zero.mp
        (countP_unknown_shift_syn c.start_line path items) it hil
      exact absurd (by rw [hkind]; rfl) hnu
    | error e =>
      rw [hs] at hil
      simp at hil
      rw [hil] at hkind
      have : ItemKind.Unknown (c.text.take 500)
          (parseErrorDisplay path e) = ItemKind.Unknown raw err := hkind
      injection this with h1 h2
      exact h1.symm

/-- Witness for the C9 theorem: the recorded error of the broken-file
scenario keeps the 200-character prefix of its chunk. -/
theorem parse_error_truncation_witness :
    ∃ c ∈ split_into_items contentP, errP.raw_text = c.text.take 200 :=
  (parse_error_truncation synP pathP contentP
    (derive_module_path pathP)).1 errP (by decide)

/-- Claim C3, counterexample: spans are not 1-based positions of the
items.  On the broken-file scenario the recovered items (wrapper module
and function of chunk one, unknown item of chunk two, wrapper module and
function of chunk three) carry span start lines 0, 0, 1, 2 and 2 — the
0-based starting lines of their chunks — although the items sit on
1-based lines 1, 2 and 3; in particular a recorded start line is 0, which
no 1-based coordinate allows. -/
theorem parse_partial_spans_zero_based_cx :
    parse_file readP synP pathP = Except.ok parsedP ∧
    parsedPStarts = [0, 0, 1, 2, 2] ∧ 0 ∈ parsedPStarts := by
  refine ⟨rfl, by decide, by decide⟩

theorem shift_syn_start_line (off : Nat) (path : Str)
    (items : List SynItem) :
    ∀ it ∈ shiftItems off (items.map (synToParsed path)),
      it.span.start_line = off := by
  intro it hit
  unfold shiftItems at hit
  rw [List.mem_map] at hit
  obtain ⟨it0, hit0, rfl⟩ := hit
  rw [List.mem_map] at hit0
  obtain ⟨si, _, rfl⟩ := hit0
  simp [synToParsed, shiftSpanBy, spanDefault]

/-- Claim C3 (amended): every item produced by the partial fallback
carries a span whose start line equals its chunk's 0-based starting-line
offset — chunk-granular coordinates, not the item's own 1-based line.
(Successfully re-parsed items all carry the extractor's all-zero default
span before the shift; unknown items use the chunk span directly.) -/
theorem parse_partial_span_eq_chunk_start (syn : SynOracle)
    (path content : Str) (mp : List Str) :
    ∀ it ∈ (parse_partial_file syn path content mp).items,
      ∃ c ∈ split_into_items content, it.span.start_line = c.start_line := by
  intro it hit
  rw [(parse_partial_items_eq syn path content mp).1, List.mem_flatten] at hit
  obtain ⟨l, hl, hil⟩ := hit
  rw [List.mem_map] at hl
  obtain ⟨c, hc, rfl⟩ := hl
  refine ⟨c, hc, ?_⟩
  unfold chunkOutItems parse_chunk at hil
  cases hs : syn (wrapChunk c.text) with
  | ok items =>
    rw [hs] at hil
    exact shift_syn_start_line c.start_line path items it hil
  | error e =>
    rw [hs] at hil
    simp at hil
    rw [hil]
    rfl

/-- Witness for the amended C3 theorem on the scenario's first item. -/
theorem parse_partial_span_eq_chunk_start_witness :
    ∃ c ∈ split_into_items contentP, itP.span.start_line = c.start_line :=
  parse_partial_span_eq_chunk_start synP pathP contentP
    (derive_module_path pathP) itP (by decide)

/-- Claim C6: every scored item receives a score of at least zero, and the
concrete item with maximally negative contributing factors (test-named,
file absent from the distance cache so the entry distance is the usize
maximum sentinel, eleven call sites, no cross-module usage, private, no
generics, no impls) receives a final score of exactly zero. -/
theorem score_item_floor :
    (∀ st it, 0 ≤ (score_item st it).score) ∧
    (score_item floorState floorItem).score = 0 ∧
    (score_item floorState floorItem).factors =
      { entry_distance := USIZE_MAX
        call_count := 11
        is_site := false
        impl_count := 0
        trait_impls := []
        cross_module_count := 0
        generic_depth := 0
        is_test := true } := by
  refine ⟨fun st it => ?_, by decide, by decide⟩
  exact le_max_right _ 0

theorem le_foldl_max (l : List (Str × Nat)) : ∀ a : Nat,
    a ≤ l.foldl (fun m p => Nat.max m p.2) a := by
  induction l with
  | nil => intro a; exact Nat.le_refl a
  | cons p l ih =>
    intro a
    exact Nat.le_trans (Nat.le_max_left a p.2) (ih (Nat.max a p.2))

theorem mem_le_foldl_max (l : List (Str × Nat)) : ∀ a : Nat, ∀ pr ∈ l,
    pr.2 ≤ l.foldl (fun m p => Nat.max m p.2) a := by
  induction l with
  | nil => intro a pr h; simp at h
  | cons p l ih =>
    intro a pr h
    rcases List.mem_cons.mp h with h1 | h2
    · subst h1
      exact Nat.le_trans (Nat.le_max_right a pr.2) (le_foldl_max l _)
    · exact ih (Nat.max a p.2) pr h2

theorem mapGet_entryOrInsert_preserve {V : Type} (m : List (Str × V))
    (k' : Str) (v : V) (k : Str) (w : V) (h : mapGet m k = some w) :
    mapGet (mapEntryOrInsert m k' v) k = some w := by
  induction m with
  | nil => simp [mapGet] at h
  | cons kv m ih =>
    obtain ⟨k0, v0⟩ := kv
    by_cases h1 : k' = k0
    · simp only [mapEntryOrInsert, if_pos h1]
      exact h
    · simp only [mapEntryOrInsert, if_neg h1]
      by_cases h2 : k = k0
      · simpa [mapGet, h2] using h
      · simp only [mapGet, if_neg h2] at h ⊢
        exact ih h

theorem mapGet_entryOrInsert_self {V : Type} (m : List (Str × V)) (k : Str)
    (v : V) (h : mapGet m k = none) :
    mapGet (mapEntryOrInsert m k v) k = some v := by
  induction m with
  | nil => simp [mapEntryOrInsert, mapGet]
  | cons kv m ih =>
    obtain ⟨k0, v0⟩ := kv
    by_cases h2 : k = k0
    · simp [mapGet, h2] at h
    · simp only [mapGet, if_neg h2] at h
      simp only [mapEntryOrInsert, if_neg h2, mapGet]
      exact ih h

theorem mapGet_entryOrInsert_none {V : Type} (m : List (Str × V))
    (k' : Str) (v : V) (k : Str) (h : mapGet m k = none) (hne : k ≠ k') :
    mapGet (mapEntryOrInsert m k' v) k = none := by
  induction m with
  | nil => simp [mapEntryOrInsert, mapGet, hne]
  | cons kv m ih =>
    obtain ⟨k0, v0⟩ := kv
    by_cases h1 : k' = k0
    · simp only [mapEntryOrInsert, if_pos h1]
      exact h
    · by_cases h2 : k = k0
      · simp [mapGet, h2] at h
      · simp only [mapGet, if_neg h2] at h
        simp only [mapEntryOrInsert, if_neg h1, mapGet]
        rw [if_neg h2]
        exact ih h

theorem foldl_entry_preserve (files : List ParsedFile) (M : Nat) :
    ∀ (m : List (Str × Nat)) (k : Str) (w : Nat), mapGet m k = some w →
      mapGet (files.foldl (fun c f => mapEntryOrInsert c f.path M) m) k
        = some w := by
  induction files with
  | nil => intro m k w h; exact h
  | cons f fs ih =>
    intro m k w h
    exact ih _ k w (mapGet_entryOrInsert_preserve m f.path M k w h)

theorem foldl_entry_insert (files : List ParsedFile) (M : Nat) :
    ∀ (m : List (Str × Nat)) (k : Str),
      (mapGet m k = none ∨ mapGet m k = some M) →
      k ∈ files.map (fun f => f.path) →
      mapGet (files.foldl (fun c f => mapEntryOrInsert c f.path M) m) k
        = some M := by
  induction files with
  | nil => intro m k _ hk; simp at hk
  | cons f fs ih =>
    intro m k h hk
    by_cases he : k = f.path
    · have hstep : mapGet (mapEntryOrInsert m f.path M) k = some M := by
        rcases h with h | h
        · subst he; exact mapGet_entryOrInsert_self m f.path M h
        · exact mapGet_entryOrInsert_preserve m f.path M k M h
      exact foldl_entry_preserve fs M _ k M hstep
    · have hk' : k ∈ fs.map (fun f => f.path) := by
        rcases List.mem_cons.mp hk with h1 | h2
        · exact absurd h1 he
        · exact h2
      refine ih _ k ?_ hk'
      rcases h with h | h
      · exact Or.inl (mapGet_entryOrInsert_none m f.path M k h he)
      · exact Or.inr (mapGet_entryOrInsert_preserve m f.path M k M h)

/-- Claim C8: whenever the traversal loop terminates with a recorded
cache, compute_distances applies the fallback to it, every recorded
(reachable) distance is strictly below the fallback value, and every
parsed file the traversal never visited is assigned exactly the maximum
recorded distance plus one. -/
theorem compute_distances_fallback (files : List ParsedFile)
    (ex : Str → Bool) (root : Str) (fuel : Nat) (pre : List (Str × Nat))
    (h : distLoop files ex fuel [(entryOf ex root, 0)] [] [] = some pre) :
    compute_distances fuel files ex root = some (applyFallback files pre) ∧
    (∀ pr ∈ pre, pr.2 < maxValues pre + 1) ∧
    (∀ f ∈ files, mapGet pre f.path = none →
      mapGet (applyFallback files pre) f.path = some (maxValues pre + 1)) := by
  refine ⟨?_, ?_, ?_⟩
  · unfold compute_distances
    rw [h]
    rfl
  · intro pr hpr
    exact Nat.lt_succ_of_le (mem_le_foldl_max pre 0 pr hpr)
  · intro f hf hnone
    unfold applyFallback
    exact foldl_entry_insert files (maxValues pre + 1) pre f.path
      (Or.inl hnone) (List.mem_map_of_mem _ hf)

/-- Witness for the C8 theorem: in the scenario with an orphan file, the
traversal records distances 0, 1, 1 for the three reachable files and the
orphan is assigned distance 2, strictly above all of them. -/
theorem compute_distances_fallback_witness :
    mapGet (applyFallback filesC8 preC8) orphanPathS
      = some (maxValues preC8 + 1) :=
  (compute_distances_fallback filesC8 exS rootDot 9 preC8 (by decide)).2.2
    orphanFileS (by decide) (by decide)

/-- Claim C4, counterexample: the query results are not independent of the
hash map's enumeration order down to tied entries.  The two orders of the
same two-entry reference map (each path used once, so the counts tie) are
permutations of one another, yet get_all_external_symbols returns
differently ordered results, because the sort compares counts only and
ties retain enumeration order. -/
theorem external_symbols_order_dependent_cx :
    refsOrder1.Perm refsOrder2 ∧
    get_all_external_symbols refsOrder1
      ≠ get_all_external_symbols refsOrder2 := by
  constructor
  · exact List.Perm.swap (extPathB, [refB]) (extPathA, [refA]) []
  · decide

/-- Claim C4 (amended): get_all_external_symbols is deterministic up to
the order of tied entries: for any two enumeration orders of the same
reference map, the outputs are permutations of each other, and every
output is sorted by usage count in non-increasing order. -/
theorem external_symbols_perm_sorted
    (o1 o2 : List (Str × List ExternalReference)) (h : o1.Perm o2) :
    (get_all_external_symbols o1).Perm (get_all_external_symbols o2) ∧
    (get_all_external_symbols o1).Sorted countGe := by
  constructor
  · unfold get_all_external_symbols
    exact (List.perm_insertionSort countGe _).trans
      ((h.map _).trans (List.perm_insertionSort countGe _).symm)
  · exact List.sorted_insertionSort countGe _

/-- Witness for the amended C4 theorem at the two concrete enumeration
orders. -/
theorem external_symbols_perm_sorted_witness :
    (get_all_external_symbols refsOrder1).Perm
      (get_all_external_symbols refsOrder2) ∧
    (get_all_external_symbols refsOrder1).Sorted countGe :=
  external_symbols_perm_sorted refsOrder1 refsOrder2
    (List.Perm.swap (extPathB, [refB]) (extPathA, [refA]) [])

/-- Claim C2, counterexample: when the root cannot be traversed at all,
the walker yields only an error entry, parse_project discards it through
its ok filter and succeeds with the empty file list, and analyze_project
therefore succeeds as well instead of aborting with an error. -/
theorem parse_project_missing_root_ok_cx :
    parse_project badWalk readAlwaysErr synAlwaysErr = Except.ok [] ∧
    analyzeOutcome badWalk readAlwaysErr synAlwaysErr = Except.ok () :=
  ⟨rfl, rfl⟩

theorem filterMap_exceptToOption_nil (walk : List (Except Str Str))
    (h : ∀ e ∈ walk, ∃ msg, e = Except.error msg) :
    walk.filterMap exceptToOption = [] := by
  revert h
  induction walk with
  | nil => intro _; rfl
  | cons e walk ih =>
    intro h
    obtain ⟨msg, he⟩ := h e (List.mem_cons_self e walk)
    subst he
    rw [List.filterMap_cons]
    simp only [exceptToOption]
    exact ih (fun e' he' => h e' (List.mem_cons_of_mem _ he'))

/-- Claim C2 (amended): when the root cannot be traversed (every walk
entry is an error), parse_project succeeds with an empty file list rather
than returning an error, and analyze_project succeeds. -/
theorem parse_project_all_errors_ok (walk : List (Except Str Str))
    (readF : Str → Except Str Str) (syn : SynOracle)
    (h : ∀ e ∈ walk, ∃ msg, e = Except.error msg) :
    parse_project walk readF syn = Except.ok [] ∧
    analyzeOutcome walk readF syn = Except.ok () := by
  have hfm := filterMap_exceptToOption_nil walk h
  constructor
  · unfold parse_project
    rw [hfm]
    rfl
  · unfold analyzeOutcome parse_project
    rw [hfm]

/-- Witness for the amended C2 theorem on a two-error walk. -/
theorem parse_project_all_errors_ok_witness :
    parse_project badWalk2 readAlwaysErr synAlwaysErr = Except.ok [] ∧
    analyzeOutcome badWalk2 readAlwaysErr synAlwaysErr = Except.ok () :=
  parse_project_all_errors_ok badWalk2 readAlwaysErr synAlwaysErr (by
    intro e he
    rcases List.mem_cons.mp he with h1 | h2
    · exact ⟨walkErrMsg, h1⟩
    · rcases List.mem_cons.mp h2 with h3 | h4
      · exact ⟨walkErrMsg2, h3⟩
      · simp at h4)

end Rustin
